import Mathlib

/-!
Verification of the `header-auth-worker` Cloudflare Worker
(`src/workers/header-auth-worker/src/index.ts`).

The worker is shallowly embedded below:

* `workerFetch` models the exported `fetch` handler (routing),
* `handleSecure` models `handleSecure` (cookie lookup, JWT decoding and
  claim rendering),
* `handleCountryFlag` models `handleCountryFlag` (blob-store lookup and
  flag-page rendering),
* `decodeJWT`, `blobToBase64` and `renderHTML` model the helpers of the
  same names.

Runtime built-ins used by the worker (`String.prototype.split` / `trim`,
`atob`, `btoa`, `JSON.parse`, property access, `Date.prototype.toUTCString`)
are modelled from their WHATWG/ECMAScript specifications, on `List Char`
so that every definition is executable.
-/

set_option maxRecDepth 100000

namespace HeaderAuth

/-! ### JavaScript string primitives -/

/-- Model of `String.prototype.split` with a one-character separator:
splits on every occurrence of `sep`, keeping empty pieces
(`"a;;b" ↦ ["a", "", "b"]`, `"" ↦ [""]`). -/
def splitOnChar (sep : Char) : List Char → List (List Char)
  | [] => [[]]
  | c :: rest =>
    match splitOnChar sep rest with
    | [] => [[]]
    | piece :: pieces =>
      if c = sep then [] :: piece :: pieces else (c :: piece) :: pieces

/-- Characters removed by `String.prototype.trim` (ASCII whitespace plus the
common Unicode whitespace the worker could ever see in a cookie header). -/
def jsWs (c : Char) : Bool :=
  c = ' ' || c = '\t' || c = '\n' || c = '\r' || c = '\x0b' || c = '\x0c' ||
  c = ' ' || c = '﻿'

/-- Model of `String.prototype.trim`. -/
def jsTrim (l : List Char) : List Char :=
  ((l.dropWhile jsWs).reverse.dropWhile jsWs).reverse

/-! ### Base64 (`btoa` / `atob`)

`blobToBase64` in the worker turns the blob's bytes into a binary string via
`String.fromCharCode` and calls `btoa`; `decodeJWT` calls `atob`.  `btoa` is
RFC 4648 base64 encoding of the string's code units (failing if any exceeds
255); `atob` is the WHATWG forgiving-base64 decode. -/

def b64Alphabet : List Char :=
  "ABCDEFGHIJKLMNOPQRSTUVWXYZabcdefghijklmnopqrstuvwxyz0123456789+/".data

/-- The base64 digit for a sextet value. -/
def b64CharOf (n : Nat) : Char := b64Alphabet.getD n 'A'

/-- The sextet value of a base64 digit (`none` for a character outside the
alphabet, in particular for `=` and whitespace). -/
def decB64Char (c : Char) : Option Nat := b64Alphabet.indexOf? c

/-- Bytes to sextets, the bit-packing core of base64 encoding.  A final group
of one byte yields two sextets, of two bytes three sextets. -/
def bytesToSextets : List Nat → List Nat
  | [] => []
  | [a] => [a / 4, a % 4 * 16]
  | [a, b] => [a / 4, a % 4 * 16 + b / 16, b % 16 * 4]
  | a :: b :: c :: rest =>
    a / 4 :: (a % 4 * 16 + b / 16) :: (b % 16 * 4 + c / 64) :: c % 64 ::
      bytesToSextets rest

/-- Number of `=` padding characters appended for `n` input bytes. -/
def b64PadLen (n : Nat) : Nat := (3 - n % 3) % 3

/-- RFC 4648 base64 encoding of a byte list (the value-level content of
`btoa`). -/
def encodeB64 (bytes : List Nat) : List Char :=
  (bytesToSextets bytes).map b64CharOf ++ List.replicate (b64PadLen bytes.length) '='

/-- Model of the `btoa` built-in: fails when a code unit exceeds 255,
otherwise base64-encodes the code units. -/
def btoa (s : List Char) : Option (List Char) :=
  if s.all (fun c => c.toNat ≤ 255) then some (encodeB64 (s.map Char.toNat))
  else none

/-- ASCII whitespace removed by forgiving-base64 decoding. -/
def b64Ws (c : Char) : Bool :=
  c = '\t' || c = '\n' || c = '\x0c' || c = '\r' || c = ' '

/-- Removes one or two trailing `=` characters. -/
def dropPad (d : List Char) : List Char :=
  match d.reverse with
  | c1 :: c2 :: r =>
    if c1 = '=' then (if c2 = '=' then r.reverse else (c2 :: r).reverse) else d
  | [c1] => if c1 = '=' then [] else d
  | [] => d

/-- Step 2 of forgiving-base64 decoding: padding may be dropped only when the
length is a multiple of four. -/
def stripPad (d : List Char) : List Char :=
  if d.length % 4 = 0 then dropPad d else d

/-- Maps every character to its sextet, failing on any character outside the
base64 alphabet. -/
def decodeB64Chars : List Char → Option (List Nat)
  | [] => some []
  | c :: r =>
    match decB64Char c, decodeB64Chars r with
    | some v, some vs => some (v :: vs)
    | _, _ => none

/-- Sextets back to bytes; a trailing group of one sextet is an error, groups
of two or three sextets yield one or two bytes (low bits discarded, as in
forgiving-base64 decoding). -/
def sextetsToBytes : List Nat → Option (List Nat)
  | [] => some []
  | [_] => none
  | [s1, s2] => some [s1 * 4 + s2 / 16]
  | [s1, s2, s3] => some [s1 * 4 + s2 / 16, s2 % 16 * 16 + s3 / 4]
  | s1 :: s2 :: s3 :: s4 :: rest =>
    (sextetsToBytes rest).map
      (fun bs => (s1 * 4 + s2 / 16) :: (s2 % 16 * 16 + s3 / 4) :: (s3 % 4 * 64 + s4) :: bs)

/-- Model of the `atob` built-in (WHATWG forgiving-base64 decode): strip ASCII
whitespace, strip up to two trailing `=` when the length is a multiple of
four, reject a remainder of one, reject characters outside the alphabet, then
unpack the sextets. -/
def atobChars (s : List Char) : Option (List Nat) :=
  let d := stripPad (s.filter (fun c => !(b64Ws c)))
  if d.length % 4 = 1 then none
  else
    match decodeB64Chars d with
    | none => none
    | some sx => sextetsToBytes sx

/-! ### Round-trip lemmas for base64 -/

/-- Induction on a byte list in the three-byte groups base64 works in. -/
theorem chunk3Induction {P : List Nat → Prop} (h0 : P []) (h1 : ∀ a, P [a])
    (h2 : ∀ a b, P [a, b]) (h3 : ∀ a b c r, P r → P (a :: b :: c :: r)) :
    ∀ l, P l
  | [] => h0
  | [a] => h1 a
  | [a, b] => h2 a b
  | a :: b :: c :: r => h3 a b c r (chunk3Induction h0 h1 h2 h3 r)

theorem b64Alphabet_length : b64Alphabet.length = 64 := rfl

theorem decB64Char_b64CharOf : ∀ n, n < 64 → decB64Char (b64CharOf n) = some n := by
  decide

theorem b64CharOf_ne_eq : ∀ n, b64CharOf n ≠ '=' := by
  intro n
  by_cases h : n < 64
  · revert h
    revert n
    decide
  · unfold b64CharOf
    rw [List.getD_eq_default]
    · decide
    · rw [b64Alphabet_length]
      omega

theorem b64CharOf_not_ws : ∀ n, b64Ws (b64CharOf n) = false := by
  intro n
  by_cases h : n < 64
  · revert h
    revert n
    decide
  · unfold b64CharOf
    rw [List.getD_eq_default]
    · decide
    · rw [b64Alphabet_length]
      omega

theorem sextets_lt : ∀ l, (∀ b ∈ l, b ≤ 255) → ∀ s ∈ bytesToSextets l, s < 64 := by
  intro l
  induction l using chunk3Induction with
  | h0 => simp [bytesToSextets]
  | h1 a =>
    intro hb s hs
    have ha := hb a (by simp)
    simp [bytesToSextets] at hs
    rcases hs with h | h <;> omega
  | h2 a b =>
    intro hb s hs
    have ha := hb a (by simp)
    have hb' := hb b (by simp)
    simp [bytesToSextets] at hs
    rcases hs with h | h | h <;> omega
  | h3 a b c r ih =>
    intro hb s hs
    have ha := hb a (by simp)
    have hb' := hb b (by simp)
    have hc := hb c (by simp)
    simp only [bytesToSextets, List.mem_cons] at hs
    rcases hs with h | h | h | h | h
    · omega
    · omega
    · omega
    · omega
    · exact ih (fun x hx => hb x (by simp [hx])) s h

theorem bytesToSextets_len_mod : ∀ l, (bytesToSextets l).length % 4 ≠ 1 := by
  intro l
  induction l using chunk3Induction with
  | h0 => simp [bytesToSextets]
  | h1 a => simp [bytesToSextets]
  | h2 a b => simp [bytesToSextets]
  | h3 a b c r ih =>
    simp only [bytesToSextets, List.length_cons] at *
    omega

theorem sextetsToBytes_bytesToSextets :
    ∀ l, (∀ b ∈ l, b ≤ 255) → sextetsToBytes (bytesToSextets l) = some l := by
  intro l
  induction l using chunk3Induction with
  | h0 => intro _; rfl
  | h1 a =>
    intro hb
    have ha := hb a (by simp)
    simp only [bytesToSextets, sextetsToBytes, Option.some.injEq, List.cons.injEq,
      and_true]
    omega
  | h2 a b =>
    intro hb
    have ha := hb a (by simp)
    have hb' := hb b (by simp)
    simp only [bytesToSextets, sextetsToBytes, Option.some.injEq, List.cons.injEq,
      and_true]
    refine ⟨by omega, by omega⟩
  | h3 a b c r ih =>
    intro hb
    have ha := hb a (by simp)
    have hb' := hb b (by simp)
    have hc := hb c (by simp)
    have ihr := ih (fun x hx => hb x (by simp [hx]))
    simp only [bytesToSextets, sextetsToBytes, ihr, Option.map_some',
      Option.some.injEq, List.cons.injEq, and_true]
    refine ⟨by omega, by omega, by omega⟩

theorem decodeB64Chars_map :
    ∀ l, (∀ s ∈ l, s < 64) → decodeB64Chars (l.map b64CharOf) = some l := by
  intro l
  induction l with
  | nil => intro _; rfl
  | cons s r ih =>
    intro h
    have hs := h s (by simp)
    simp only [List.map_cons, decodeB64Chars, decB64Char_b64CharOf s hs,
      ih (fun x hx => h x (by simp [hx]))]

theorem encodeB64_len_mod : ∀ l, (encodeB64 l).length % 4 = 0 := by
  intro l
  induction l using chunk3Induction with
  | h0 => rfl
  | h1 a => simp [encodeB64, bytesToSextets, b64PadLen]
  | h2 a b => simp [encodeB64, bytesToSextets, b64PadLen]
  | h3 a b c r ih =>
    simp only [encodeB64, bytesToSextets, List.map_cons, List.length_append,
      List.length_map, List.length_cons, List.length_replicate, b64PadLen] at *
    omega

theorem dropPad_append_pad (s : List Char) (hs : ∀ c ∈ s, c ≠ '=') :
    ∀ k, k ≤ 2 → dropPad (s ++ List.replicate k '=') = s := by
  intro k hk
  interval_cases k
  · simp only [List.replicate, List.append_nil]
    unfold dropPad
    cases hr : s.reverse with
    | nil => simp at hr; simp [hr]
    | cons c1 r =>
      have hc1 : c1 ∈ s := by
        rw [← List.mem_reverse, hr]; simp
      have := hs c1 hc1
      cases r <;> simp [this]
  · unfold dropPad
    have h1 : (s ++ List.replicate 1 '=').reverse = '=' :: s.reverse := by simp
    rw [h1]
    cases hr : s.reverse with
    | nil =>
      simp at hr
      simp [hr]
    | cons c2 r =>
      have hne : c2 ≠ '=' := hs c2 (by rw [← List.mem_reverse, hr]; simp)
      simp only [if_pos rfl, if_neg hne, ← hr, List.reverse_reverse]
      simp
  · unfold dropPad
    have h2' : (s ++ List.replicate 2 '=').reverse = '=' :: '=' :: s.reverse := by simp
    rw [h2']
    simp

theorem b64PadLen_le : ∀ n, b64PadLen n ≤ 2 := by
  intro n
  simp only [b64PadLen]
  omega

theorem encodeB64_filter_ws (l : List Nat) :
    (encodeB64 l).filter (fun c => !(b64Ws c)) = encodeB64 l := by
  rw [List.filter_eq_self]
  intro c hc
  simp only [encodeB64, List.mem_append, List.mem_map, List.mem_replicate] at hc
  rcases hc with ⟨n, _, rfl⟩ | ⟨_, rfl⟩
  · simp [b64CharOf_not_ws]
  · decide

theorem stripPad_encodeB64 (l : List Nat) :
    stripPad (encodeB64 l) = (bytesToSextets l).map b64CharOf := by
  unfold stripPad
  rw [if_pos (encodeB64_len_mod l)]
  unfold encodeB64
  apply dropPad_append_pad
  · intro c hc
    simp only [List.mem_map] at hc
    obtain ⟨n, _, rfl⟩ := hc
    exact b64CharOf_ne_eq n
  · exact b64PadLen_le _

/-- Base64 round trip: decoding (as `atob` does) the `btoa`-style encoding of
any byte list gives back exactly those bytes. -/
theorem atobChars_encodeB64 (l : List Nat) (h : ∀ b ∈ l, b ≤ 255) :
    atobChars (encodeB64 l) = some l := by
  unfold atobChars
  simp only [encodeB64_filter_ws, stripPad_encodeB64]
  rw [if_neg (by simp only [List.length_map]; exact bytesToSextets_len_mod l)]
  rw [decodeB64Chars_map _ (sextets_lt l h)]
  exact sextetsToBytes_bytesToSextets l h

/-! ### JSON values and `JSON.parse`

`decodeJWT` feeds the decoded payload bytes to `JSON.parse`.  The parser below
follows the JSON grammar accepted by `JSON.parse`; numbers keep their exact
decimal value `m × 10^e` (which coincides with the JavaScript double for every
integer a JWT `iat` claim can carry). -/

inductive Json where
  | null
  | bool (b : Bool)
  | num (m e : Int)
  | str (s : List Char)
  | arr (xs : List Json)
  | obj (fields : List (List Char × Json))

/-- Whitespace skipped between JSON tokens. -/
def jsonWsChar (c : Char) : Bool := c = ' ' || c = '\t' || c = '\n' || c = '\r'

def skipJsonWs (s : List Char) : List Char := s.dropWhile jsonWsChar

/-- Value of a hexadecimal digit. -/
def hexVal (c : Char) : Option Nat :=
  if '0' ≤ c && c ≤ '9' then some (c.toNat - 48)
  else if 'a' ≤ c && c ≤ 'f' then some (c.toNat - 87)
  else if 'A' ≤ c && c ≤ 'F' then some (c.toNat - 55)
  else none

def hex4 (a b c d : Char) : Option Nat :=
  match hexVal a, hexVal b, hexVal c, hexVal d with
  | some x, some y, some z, some w => some (x * 4096 + y * 256 + z * 16 + w)
  | _, _, _, _ => none

/-- Scalar for a `\uXXXX` escape; a lone surrogate (which a Lean `Char`
cannot carry) is approximated by the replacement character. -/
def charOfUnit (n : Nat) : Char :=
  if n < 0xd800 || (0xdfff < n && n < 0x110000) then Char.ofNat n else '�'

/-- Body of a JSON string literal, after the opening quote: returns the
decoded content and the input following the closing quote.  The fuel only
serves termination; any fuel above the input length behaves identically. -/
def strBody : Nat → List Char → Option (List Char × List Char)
  | 0, _ => none
  | _ + 1, [] => none
  | _ + 1, '"' :: r => some ([], r)
  | fuel + 1, '\\' :: '"' :: r => (strBody fuel r).map (fun p => ('"' :: p.1, p.2))
  | fuel + 1, '\\' :: '\\' :: r => (strBody fuel r).map (fun p => ('\\' :: p.1, p.2))
  | fuel + 1, '\\' :: '/' :: r => (strBody fuel r).map (fun p => ('/' :: p.1, p.2))
  | fuel + 1, '\\' :: 'b' :: r => (strBody fuel r).map (fun p => ('\x08' :: p.1, p.2))
  | fuel + 1, '\\' :: 'f' :: r => (strBody fuel r).map (fun p => ('\x0c' :: p.1, p.2))
  | fuel + 1, '\\' :: 'n' :: r => (strBody fuel r).map (fun p => ('\n' :: p.1, p.2))
  | fuel + 1, '\\' :: 'r' :: r => (strBody fuel r).map (fun p => ('\r' :: p.1, p.2))
  | fuel + 1, '\\' :: 't' :: r => (strBody fuel r).map (fun p => ('\t' :: p.1, p.2))
  | fuel + 1, '\\' :: 'u' :: a :: b :: c :: d :: r =>
    match hex4 a b c d with
    | none => none
    | some n =>
      if 0xd800 ≤ n && n ≤ 0xdbff then
        match r with
        | '\\' :: 'u' :: a2 :: b2 :: c2 :: d2 :: r2 =>
          match hex4 a2 b2 c2 d2 with
          | some n2 =>
            if 0xdc00 ≤ n2 && n2 ≤ 0xdfff then
              (strBody fuel r2).map
                (fun p =>
                  (charOfUnit (0x10000 + (n - 0xd800) * 1024 + (n2 - 0xdc00)) :: p.1,
                   p.2))
            else (strBody fuel r).map (fun p => ('�' :: p.1, p.2))
          | none => (strBody fuel r).map (fun p => ('�' :: p.1, p.2))
        | _ => (strBody fuel r).map (fun p => ('�' :: p.1, p.2))
      else (strBody fuel r).map (fun p => (charOfUnit n :: p.1, p.2))
  | _ + 1, '\\' :: _ => none
  | fuel + 1, c :: r =>
    if c.toNat < 32 then none else (strBody fuel r).map (fun p => (c :: p.1, p.2))

def digitsToNat (l : List Char) : Nat :=
  l.foldl (fun acc c => acc * 10 + (c.toNat - 48)) 0

def tenPow (k : Nat) : Int := (10 : Int) ^ k

/-- JSON number literal: optional sign, integer part (no leading zeros),
optional fraction, optional exponent.  Returns the exact decimal value as
`(m, e)` with value `m × 10^e`, plus the remaining input. -/
def parseNum (s : List Char) : Option ((Int × Int) × List Char) :=
  let sgn : Int := match s with
    | '-' :: _ => -1
    | _ => 1
  let s1 : List Char := match s with
    | '-' :: r => r
    | _ => s
  match s1 with
  | [] => none
  | c0 :: _ =>
    if c0.isDigit then
      let (intDs, r2) :=
        if c0 = '0' then ([c0], s1.tail)
        else (s1.takeWhile Char.isDigit, s1.dropWhile Char.isDigit)
      let fracStep : Option (List Char × List Char) :=
        match r2 with
        | '.' :: r' =>
          let ds := r'.takeWhile Char.isDigit
          if ds.isEmpty then none else some (ds, r'.dropWhile Char.isDigit)
        | _ => some ([], r2)
      match fracStep with
      | none => none
      | some (fracDs, r3) =>
        let expStep : Option (Int × List Char) :=
          match r3 with
          | e :: r' =>
            if e = 'e' || e = 'E' then
              let esgn : Int := match r' with
                | '-' :: _ => -1
                | _ => 1
              let r'' : List Char := match r' with
                | '+' :: t => t
                | '-' :: t => t
                | _ => r'
              let ds := r''.takeWhile Char.isDigit
              if ds.isEmpty then none
              else some (esgn * (digitsToNat ds : Int), r''.dropWhile Char.isDigit)
            else some (0, r3)
          | [] => some (0, r3)
        match expStep with
        | none => none
        | some (ev, r4) =>
          some ((sgn * (digitsToNat (intDs ++ fracDs) : Int),
                 ev - (fracDs.length : Int)), r4)
    else none

mutual

def parseValue : Nat → List Char → Option (Json × List Char)
  | 0, _ => none
  | fuel + 1, s =>
    match skipJsonWs s with
    | '{' :: r =>
      match skipJsonWs r with
      | '}' :: r1 => some (.obj [], r1)
      | r1 =>
        match parseMembers fuel r1 with
        | some (ms, rest) => some (.obj ms, rest)
        | none => none
    | '[' :: r =>
      match skipJsonWs r with
      | ']' :: r1 => some (.arr [], r1)
      | r1 =>
        match parseItems fuel r1 with
        | some (vs, rest) => some (.arr vs, rest)
        | none => none
    | '"' :: r => (strBody (r.length + 1) r).map (fun p => (.str p.1, p.2))
    | 't' :: 'r' :: 'u' :: 'e' :: r => some (.bool true, r)
    | 'f' :: 'a' :: 'l' :: 's' :: 'e' :: r => some (.bool false, r)
    | 'n' :: 'u' :: 'l' :: 'l' :: r => some (.null, r)
    | s' => (parseNum s').map (fun p => (.num p.1.1 p.1.2, p.2))

def parseMembers : Nat → List Char → Option (List (List Char × Json) × List Char)
  | 0, _ => none
  | fuel + 1, s =>
    match skipJsonWs s with
    | '"' :: r =>
      match strBody (r.length + 1) r with
      | none => none
      | some (key, r1) =>
        match skipJsonWs r1 with
        | ':' :: r2 =>
          match parseValue fuel r2 with
          | none => none
          | some (v, r3) =>
            match skipJsonWs r3 with
            | ',' :: r4 =>
              match parseMembers fuel r4 with
              | some (ms, rest) => some ((key, v) :: ms, rest)
              | none => none
            | '}' :: r4 => some ([(key, v)], r4)
            | _ => none
        | _ => none
    | _ => none

def parseItems : Nat → List Char → Option (List Json × List Char)
  | 0, _ => none
  | fuel + 1, s =>
    match parseValue fuel s with
    | none => none
    | some (v, r1) =>
      match skipJsonWs r1 with
      | ',' :: r2 =>
        match parseItems fuel r2 with
        | some (vs, rest) => some (v :: vs, rest)
        | none => none
      | ']' :: r2 => some ([v], r2)
      | _ => none

end

/-- Model of `JSON.parse`: parse one value and require only whitespace after
it.  The fuel `s.length + 1` dominates the nesting depth of any input. -/
def parseJson (s : List Char) : Option Json :=
  match parseValue (s.length + 1) s with
  | some (v, rest) => if (skipJsonWs rest).isEmpty then some v else none
  | none => none

/-! ### JavaScript value semantics used by `handleSecure`

Property access (`payload.email`), truthiness (`x || 'Unknown'`,
`payload.iat ? … : …`), template-literal stringification and the
`ToNumber` coercion in `payload.iat * 1000`. -/

/-- Property lookup on a parsed object: the last duplicate key wins, as in a
JavaScript object literal built by `JSON.parse`. -/
def lookupLast : List (List Char × Json) → List Char → Option Json
  | [], _ => none
  | (k, v) :: rest, key =>
    match lookupLast rest key with
    | some w => some w
    | none => if k = key then some v else none

/-- Model of `payload.key` for a non-null payload: a field of an object,
`undefined` (i.e. `none`) on every non-object.  (Access on `null` throws and
is handled separately in `handleSecure`.) -/
def getProp (v : Json) (key : List Char) : Option Json :=
  match v with
  | .obj ms => lookupLast ms key
  | _ => none

/-- JavaScript truthiness of a parsed JSON value. -/
def jsTruthy : Json → Bool
  | .null => false
  | .bool b => b
  | .num m _ => m != 0
  | .str s => !s.isEmpty
  | .arr _ => true
  | .obj _ => true

/-- Truthiness with `undefined` (`none`) being falsy. -/
def jsTruthyOpt : Option Json → Bool
  | none => false
  | some v => jsTruthy v

def intChars (i : Int) : List Char :=
  if i < 0 then '-' :: Nat.toDigits 10 i.natAbs else Nat.toDigits 10 i.natAbs

def padZeros (l : List Char) (k : Nat) : List Char :=
  List.replicate (k - l.length) '0' ++ l

/-- Decimal rendering of a JSON number, exact for integral values (where it
agrees with JavaScript number-to-string); for fractional values the exact
decimal with trailing zeros stripped, an adequate stand-in for the shortest
double representation on the short literals the worker can meet. -/
def jsNumChars (m e : Int) : List Char :=
  if 0 ≤ e then intChars (m * tenPow e.toNat)
  else
    let k := (-e).toNat
    let p := (10 : Nat) ^ k
    let a := m.natAbs
    let ip := a / p
    let fp := a % p
    if fp = 0 then intChars (if m < 0 then -(ip : Int) else (ip : Int))
    else
      let frac := ((padZeros (Nat.toDigits 10 fp) k).reverse.dropWhile
        (fun c => c = '0')).reverse
      (if m < 0 then ['-'] else []) ++ Nat.toDigits 10 ip ++ '.' :: frac

mutual

/-- Template-literal stringification `String(v)` of a parsed JSON value. -/
def jsToChars : Json → List Char
  | .null => "null".data
  | .bool true => "true".data
  | .bool false => "false".data
  | .num m e => jsNumChars m e
  | .str s => s
  | .arr xs => jsArrChars xs
  | .obj _ => "[object Object]".data

/-- `Array.prototype.toString`: elements joined by commas, `null` elements
rendering as empty. -/
def jsArrChars : List Json → List Char
  | [] => []
  | [Json.null] => []
  | [x] => jsToChars x
  | Json.null :: xs => ',' :: jsArrChars xs
  | x :: xs => jsToChars x ++ ',' :: jsArrChars xs

end

/-- ToNumber of a string (as in `payload.iat * 1000` when `iat` decoded to a
string): restricted to optionally signed decimal digit runs, the only shape
the worker's inputs can meaningfully take; other shapes map to NaN (`none`). -/
def strToNumberDec (s : List Char) : Option (Int × Int) :=
  match jsTrim s with
  | [] => some (0, 0)
  | '-' :: ds =>
    if !ds.isEmpty && ds.all Char.isDigit then some (-(digitsToNat ds : Int), 0)
    else none
  | '+' :: ds =>
    if !ds.isEmpty && ds.all Char.isDigit then some ((digitsToNat ds : Int), 0)
    else none
  | ds => if ds.all Char.isDigit then some ((digitsToNat ds : Int), 0) else none

/-- ToNumber of a parsed JSON value, as an exact decimal `(m, e)`; `none` is
NaN.  Arrays and objects (which coerce through ToPrimitive) are approximated
by NaN; no claim exercises them. -/
def jsToNumDec : Json → Option (Int × Int)
  | .num m e => some (m, e)
  | .bool b => some (if b then 1 else 0, 0)
  | .null => some (0, 0)
  | .str s => strToNumberDec s
  | .arr _ => none
  | .obj _ => none

/-! ### `Date.prototype.toUTCString` -/

/-- Civil date (year, month 1-12, day 1-31) from days since the Unix epoch,
the standard era-based conversion. -/
def daysToCivil (z : Int) : Int × Nat × Nat :=
  let z' := z + 719468
  let era : Int := Int.ediv z' 146097
  let doe : Nat := (z' - era * 146097).toNat
  let yoe : Nat := (doe - doe / 1460 + doe / 36524 - doe / 146096) / 365
  let y : Int := (yoe : Int) + era * 400
  let doy : Nat := doe - (365 * yoe + yoe / 4 - yoe / 100)
  let mp : Nat := (5 * doy + 2) / 153
  let d : Nat := doy - (153 * mp + 2) / 5 + 1
  let m : Nat := if mp < 10 then mp + 3 else mp - 9
  (if m ≤ 2 then y + 1 else y, m, d)

def monthName (m : Nat) : List Char :=
  (["Jan", "Feb", "Mar", "Apr", "May", "Jun", "Jul", "Aug", "Sep", "Oct",
    "Nov", "Dec"].getD (m - 1) "Jan").data

def weekdayName (w : Nat) : List Char :=
  (["Sun", "Mon", "Tue", "Wed", "Thu", "Fri", "Sat"].getD w "Sun").data

def pad2 (n : Nat) : List Char := padZeros (Nat.toDigits 10 n) 2

def yearChars (y : Int) : List Char :=
  if y < 0 then '-' :: padZeros (Nat.toDigits 10 y.natAbs) 4
  else padZeros (Nat.toDigits 10 y.natAbs) 4

/-- Model of `Date.prototype.toUTCString` on a time value in milliseconds:
`"Www, DD Mmm YYYY HH:MM:SS GMT"`. -/
def toUTCString (ms : Int) : List Char :=
  let days := Int.ediv ms 86400000
  let msod := (Int.emod ms 86400000).toNat
  let secs := msod / 1000
  let hh := secs / 3600
  let mm := secs % 3600 / 60
  let ss := secs % 60
  let w := (Int.emod (days + 4) 7).toNat
  let civ := daysToCivil days
  weekdayName w ++ ", ".data ++ pad2 civ.2.2 ++ ' ' :: monthName civ.2.1 ++
    ' ' :: yearChars civ.1 ++ ' ' :: pad2 hh ++ ':' :: pad2 mm ++
    ':' :: pad2 ss ++ " GMT".data

/-- Time value of `new Date(n × 1000)` for the exact decimal `(m, e)`:
`TimeClip` truncates toward zero and rejects values beyond ±8.64 × 10^15
(`none`, rendering as an invalid date). -/
def dateMsOfNum (m e : Int) : Option Int :=
  let ms : Int :=
    if 0 ≤ e + 3 then m * tenPow (e + 3).toNat
    else Int.tdiv m (tenPow (-(e + 3)).toNat)
  if ms.natAbs ≤ 8640000000000000 then some ms else none

/-- The string interpolated for the timestamp once `payload.iat` was found
truthy: `new Date(payload.iat * 1000).toUTCString()`. -/
def timestampChars (v : Json) : List Char :=
  match jsToNumDec v with
  | none => "Invalid Date".data
  | some p =>
    match dateMsOfNum p.1 p.2 with
    | none => "Invalid Date".data
    | some ms => toUTCString ms

/-! ### The worker itself

Everything below is transcribed from
`src/workers/header-auth-worker/src/index.ts`; the HTML template literals are
kept byte for byte (tabs and newlines included). -/

/-- An HTTP response: status code and `text/html` body. -/
structure Resp where
  status : Nat
  body : String
  deriving DecidableEq

/-- Shell of `renderHTML` before the first `title` interpolation. -/
def shellA : String :=
  "\n\t\t<!DOCTYPE html>\n\t\t<html lang=\"en\">\n\t\t<head>\n\t\t\t<meta charset=\"UTF-8\">\n\t\t\t<meta name=\"viewport\" content=\"width=device-width, initial-scale=1.0\">\n\t\t\t<title>"

/-- Shell of `renderHTML` between the `title` and `h1` interpolations. -/
def shellB : String :=
  "</title>\n\t\t\t<style>\n\t\t\t\tbody \x7b\n\t\t\t\t\tfont-family: -apple-system, BlinkMacSystemFont, \x27Segoe UI\x27, Roboto, sans-serif;\n\t\t\t\t\tmax-width: 800px;\n\t\t\t\t\tmargin: 50px auto;\n\t\t\t\t\tpadding: 20px;\n\t\t\t\t\tline-height: 1.6;\n\t\t\t\t\x7d\n\t\t\t\th1 \x7b\n\t\t\t\t\tcolor: #333;\n\t\t\t\t\tborder-bottom: 2px solid #0066cc;\n\t\t\t\t\tpadding-bottom: 10px;\n\t\t\t\t\x7d\n\t\t\t\ta \x7b\n\t\t\t\t\tcolor: #0066cc;\n\t\t\t\t\ttext-decoration: none;\n\t\t\t\t\tfont-weight: bold;\n\t\t\t\t\x7d\n\t\t\t\ta:hover \x7b\n\t\t\t\t\ttext-decoration: underline;\n\t\t\t\t\x7d\n\t\t\t\tp \x7b\n\t\t\t\t\tfont-size: 18px;\n\t\t\t\t\tcolor: #555;\n\t\t\t\t\x7d\n\t\t\t</style>\n\t\t</head>\n\t\t<body>\n\t\t\t<h1>"

/-- Shell of `renderHTML` between the `h1` and `content` interpolations. -/
def shellC : String := "</h1>\n\t\t\t"

/-- Shell of `renderHTML` after the `content` interpolation. -/
def shellD : String := "\n\t\t</body>\n\t\t</html>\n\t"

/-- Model of `renderHTML`: the full-page template with `title` interpolated
twice and `content` once. -/
def renderHTML (title content : String) : String :=
  shellA ++ title ++ shellB ++ title ++ shellC ++ content ++ shellD

/-- Error kinds a `decodeJWT` run can throw. -/
inductive JwtErr where
  | invalidFormat
  | invalidBase64
  | invalidJson
  deriving DecidableEq

/-- The `message` of the thrown error.  `invalidFormat` is thrown by the
worker itself with this exact text; the other two come from the `atob` and
`JSON.parse` built-ins, whose engine-specific texts are modelled by fixed
strings. -/
def errMessage : JwtErr → String
  | .invalidFormat => "Invalid JWT format"
  | .invalidBase64 => "Invalid character"
  | .invalidJson => "Unexpected token in JSON"

/-- The URL-safe-alphabet substitution of `decodeJWT`: the two global
`replace` calls mapping `-` to `+` and `_` to `/`. -/
def b64urlChar (c : Char) : Char :=
  if c = '-' then '+' else if c = '_' then '/' else c

/-- Model of `decodeJWT`: split on `.`, require three segments, base64url-
decode the middle segment, parse it as JSON.  Each `throw` of the original
becomes an `Except.error`. -/
def decodeJWT (jwt : List Char) : Except JwtErr Json :=
  let parts := splitOnChar '.' jwt
  if parts.length = 3 then
    let payload := parts.getD 1 []
    let base64 := payload.map b64urlChar
    match atobChars base64 with
    | none => .error .invalidBase64
    | some bytes =>
      match parseJson (bytes.map Char.ofNat) with
      | none => .error .invalidJson
      | some v => .ok v
  else .error .invalidFormat

/-- The cookie name plus `=`, as used by `trimmed.startsWith(…)`. -/
def credPrefix : List Char := "CF_Authorization=".data

/-- The cookie-scanning loop of `handleSecure`: first pair whose trimmed text
starts with `CF_Authorization=` wins, and its remainder is the token. -/
def findTokenInList : List (List Char) → Option (List Char)
  | [] => none
  | p :: rest =>
    let tr := jsTrim p
    if credPrefix.isPrefixOf tr then some (tr.drop 17) else findTokenInList rest

/-- Token extraction from the optional `Cookie` header. -/
def findToken : Option String → Option (List Char)
  | none => none
  | some h => findTokenInList (splitOnChar ';' h.data)

/-- The 401 response of `handleSecure` when no (non-empty) token is found. -/
def unauthResp : Resp :=
  ⟨401, renderHTML "Authentication Required"
    "<p>No Cloudflare Access JWT found. Please authenticate.</p>"⟩

/-- The catch-all 500 response of `handleSecure`. -/
def errorResp (msg : String) : Resp :=
  ⟨500, renderHTML "Error" ("<p>Error parsing JWT: " ++ msg ++ "</p>")⟩

/-- Message of the TypeError thrown by `payload.email` when the payload
decodes to JSON `null` (engine-specific text, modelled by a fixed string). -/
def nullAccessMsg : String := "Cannot read properties of null"

/-- The claim-rendering tail of `handleSecure` (lines 74-91) on a non-null
payload: `Unknown` defaulting via JavaScript truthiness, timestamp
formatting, and the message plus country-link interpolation. -/
def renderClaimsHtml (payload : Json) : Resp :=
  let email : String :=
    match getProp payload "email".data with
    | some v => if jsTruthy v then String.mk (jsToChars v) else "Unknown"
    | none => "Unknown"
  let country : String :=
    match getProp payload "country".data with
    | some v => if jsTruthy v then String.mk (jsToChars v) else "Unknown"
    | none => "Unknown"
  let timestamp : String :=
    match getProp payload "iat".data with
    | some v => if jsTruthy v then String.mk (timestampChars v) else "Unknown"
    | none => "Unknown"
  let message := email ++ " authenticated at " ++ timestamp ++ " from "
  let countryLink := "<a href=\"/secure/" ++ country ++ "\">" ++ country ++ "</a>"
  ⟨200, renderHTML "Authentication Info" ("<p>" ++ message ++ countryLink ++ "</p>")⟩

/-- On a `null` payload the property access throws a TypeError, landing in
the same catch as the decode errors; otherwise the claims are rendered. -/
def renderPayload : Json → Resp
  | .null => errorResp nullAccessMsg
  | payload => renderClaimsHtml payload

/-- The `try` block of `handleSecure`, applied to the extracted token. -/
def renderToken (t : List Char) : Resp :=
  match decodeJWT t with
  | .error e => errorResp (errMessage e)
  | .ok payload => renderPayload payload

/-- Model of `handleSecure`, as a function of the request's `Cookie` header
(the only part of the request it reads).  `if (!jwtToken)` treats both a
missing and an empty token as unauthenticated. -/
def handleSecure (cookieHeader : Option String) : Resp :=
  match findToken cookieHeader with
  | none => unauthResp
  | some t => if t.isEmpty then unauthResp else renderToken t

/-- The R2 binding `env.FLAGS`: a `get` either yields the object's bytes,
yields nothing, or throws (the `Except.error` message), which the worker's
catch turns into a 500. -/
def Store : Type := String → Except String (Option (List Nat))

/-- The catch-all 500 response of `handleCountryFlag`. -/
def storeErrResp (msg : String) : Resp :=
  ⟨500, renderHTML "Error" ("<p>Error loading flag: " ++ msg ++ "</p>")⟩

/-- Model of `blobToBase64`: the blob's bytes through `String.fromCharCode`
and `btoa`. -/
def blobToBase64 (bytes : List Nat) : Option String :=
  (btoa (bytes.map Char.ofNat)).map String.mk

/-- Message of the range error `btoa` would throw on a code unit above 255
(unreachable for bytes of a real blob). -/
def btoaErrMsg : String := "Invalid character in argument"

/-- Flag page template before the first `country` interpolation. -/
def flagA : String :=
  "\n\t\t\t<!DOCTYPE html>\n\t\t\t<html lang=\"en\">\n\t\t\t<head>\n\t\t\t\t<meta charset=\"UTF-8\">\n\t\t\t\t<meta name=\"viewport\" content=\"width=device-width, initial-scale=1.0\">\n\t\t\t\t<title>Flag: "

/-- Flag page template between the title and the `h1` interpolations. -/
def flagB : String :=
  "</title>\n\t\t\t\t<style>\n\t\t\t\t\tbody \x7b\n\t\t\t\t\t\tfont-family: -apple-system, BlinkMacSystemFont, \x27Segoe UI\x27, Roboto, sans-serif;\n\t\t\t\t\t\tmax-width: 800px;\n\t\t\t\t\t\tmargin: 50px auto;\n\t\t\t\t\t\tpadding: 20px;\n\t\t\t\t\t\ttext-align: center;\n\t\t\t\t\t\x7d\n\t\t\t\t\t.flag-container \x7b\n\t\t\t\t\t\tmargin: 30px 0;\n\t\t\t\t\t\tborder: 1px solid #ddd;\n\t\t\t\t\t\tborder-radius: 8px;\n\t\t\t\t\t\tpadding: 20px;\n\t\t\t\t\t\tbackground: #f9f9f9;\n\t\t\t\t\t\x7d\n\t\t\t\t\t.flag-container img \x7b\n\t\t\t\t\t\tmax-width: 100%;\n\t\t\t\t\t\theight: auto;\n\t\t\t\t\t\tborder: 2px solid #333;\n\t\t\t\t\t\tbox-shadow: 0 4px 6px rgba(0,0,0,0.1);\n\t\t\t\t\t\x7d\n\t\t\t\t\t.back-link \x7b\n\t\t\t\t\t\tmargin-top: 30px;\n\t\t\t\t\t\tfont-size: 16px;\n\t\t\t\t\t\x7d\n\t\t\t\t\t.back-link a \x7b\n\t\t\t\t\t\tcolor: #0066cc;\n\t\t\t\t\t\ttext-decoration: none;\n\t\t\t\t\t\x7d\n\t\t\t\t\t.back-link a:hover \x7b\n\t\t\t\t\t\ttext-decoration: underline;\n\t\t\t\t\t\x7d\n\t\t\t\t</style>\n\t\t\t</head>\n\t\t\t<body>\n\t\t\t\t<h1>Country: "

/-- Flag page template between the `h1` and the base64 payload. -/
def flagC : String :=
  "</h1>\n\t\t\t\t<div class=\"flag-container\">\n\t\t\t\t\t<img src=\"data:image/png;base64,"

/-- Flag page template between the base64 payload and the `alt`
interpolation. -/
def flagD : String := "\" alt=\"Flag of "

/-- Flag page template after the last `country` interpolation. -/
def flagE : String :=
  "\">\n\t\t\t\t</div>\n\t\t\t\t<div class=\"back-link\">\n\t\t\t\t\t<a href=\"/secure\">← Back to authentication info</a>\n\t\t\t\t</div>\n\t\t\t</body>\n\t\t\t</html>\n\t\t"

/-- The success page of `handleCountryFlag`. -/
def flagPage (country b64 : String) : String :=
  flagA ++ country ++ flagB ++ country ++ flagC ++ b64 ++ flagD ++ country ++ flagE

/-- The 404 page of `handleCountryFlag` for a code with no stored flag. -/
def flagNotFoundResp (country : String) : Resp :=
  ⟨404, renderHTML ("Flag for " ++ country)
    ("<p>Flag for country code \"" ++ country ++
     "\" not found.</p>\n\t\t\t\t\t<p><a href=\"/secure\">← Back to authentication info</a></p>")⟩

/-- Model of `handleCountryFlag`: fetch `CODE.png` from the store, 404 when
absent, otherwise inline the blob as base64; any throw becomes the 500. -/
def handleCountryFlag (country : String) (store : Store) : Resp :=
  match store (country ++ ".png") with
  | .error msg => storeErrResp msg
  | .ok none => flagNotFoundResp country
  | .ok (some blob) =>
    match blobToBase64 blob with
    | none => storeErrResp btoaErrMsg
    | some b64 => ⟨200, flagPage country b64⟩

/-- The country-route pattern of `fetch`.  The source regex carries the `i`
flag, which makes the whole pattern case-insensitive: the `secure` literal
matches in any letter case (`/SECURE/us`, `/Secure/GB`, …), and the captured
group is any two ASCII letters.  ASCII-only folding matches the legacy-mode
canonicalization of an all-ASCII pattern. -/
def countryMatch (pathname : String) : Option (Char × Char) :=
  match pathname.data with
  | '/' :: s1 :: s2 :: s3 :: s4 :: s5 :: s6 :: '/' :: c1 :: c2 :: [] =>
    if s1.toLower == 's' && s2.toLower == 'e' && s3.toLower == 'c' &&
        s4.toLower == 'u' && s5.toLower == 'r' && s6.toLower == 'e' &&
        c1.isAlpha && c2.isAlpha
    then some (c1, c2) else none
  | _ => none

/-- Model of the exported `fetch` handler, as a function of the request's
pathname, `Cookie` header and flag store. -/
def workerFetch (pathname : String) (cookieHeader : Option String)
    (store : Store) : Resp :=
  if pathname = "/secure" then handleSecure cookieHeader
  else
    match countryMatch pathname with
    | some (c1, c2) => handleCountryFlag (String.mk [c1.toUpper, c2.toUpper]) store
    | none => ⟨404, "Not Found. Try /secure"⟩

/-! ### Spec-side vocabulary

The specification's error taxonomy groups the two built-in decode failures as
DecodeError and the segment-count failure as MalformedToken. -/

inductive SpecErrorKind where
  | malformedToken
  | decodeError
  deriving DecidableEq

/-- Classification of a thrown `decodeJWT` error into the spec's taxonomy. -/
def specKind : JwtErr → SpecErrorKind
  | .invalidFormat => .malformedToken
  | .invalidBase64 => .decodeError
  | .invalidJson => .decodeError

/-! ### Substring machinery for statements about rendered HTML -/

/-- Whether `pat` is a prefix of `s` (checked pattern-first, so that it
evaluates even when only a prefix of `s` is concrete). -/
def leadsWith : List Char → List Char → Bool
  | [], _ => true
  | p :: ps, s =>
    match s with
    | [] => false
    | c :: cs => (p == c) && leadsWith ps cs

/-- Whether `pat` occurs as a contiguous run in the character list. -/
def listContains (pat : List Char) : List Char → Bool
  | [] => pat.isEmpty
  | c :: r => leadsWith pat (c :: r) || listContains pat r

/-- Whether `pat` occurs as a substring of `s`. -/
def hasSubstr (s pat : String) : Bool := listContains pat.data s.data

theorem strData_append (a b : String) : (a ++ b).data = a.data ++ b.data := by
  cases a
  cases b
  rfl

theorem listContains_append_left (pat x s : List Char)
    (h : listContains pat s = true) : listContains pat (x ++ s) = true := by
  induction x with
  | nil => simpa using h
  | cons c r ih => simp [listContains, ih]

theorem leadsWith_append (l t : List Char) : leadsWith l (l ++ t) = true := by
  induction l with
  | nil => rfl
  | cons p pr ih => simp [leadsWith, ih]

theorem listContains_self (pat t : List Char) :
    listContains pat (pat ++ t) = true := by
  cases pat with
  | nil => cases t <;> simp [listContains, leadsWith]
  | cons p pr =>
    simp only [List.cons_append, listContains, Bool.or_eq_true]
    left
    have h := leadsWith_append (p :: pr) t
    simpa using h

theorem listContains_parts (x pat y : List Char) :
    listContains pat (x ++ (pat ++ y)) = true :=
  listContains_append_left pat x _ (listContains_self pat y)

/-- Whenever a string is an append of a prefix, the pattern and a suffix, the
pattern is a substring. -/
theorem hasSubstr_of_parts (s pre pat post : String)
    (h : s = pre ++ (pat ++ post)) : hasSubstr s pat = true := by
  subst h
  unfold hasSubstr
  rw [strData_append, strData_append]
  exact listContains_parts _ _ _

theorem listContains_cons (pat : List Char) (c : Char) (s : List Char)
    (h : listContains pat s = true) : listContains pat (c :: s) = true := by
  simp [listContains, h]

theorem listContains_self2 (a b y : List Char) :
    listContains (a ++ b) (a ++ (b ++ y)) = true := by
  have h : a ++ (b ++ y) = (a ++ b) ++ y := by simp
  rw [h]
  exact listContains_self _ _

theorem listContains_self3 (a b c y : List Char) :
    listContains (a ++ (b ++ c)) (a ++ (b ++ (c ++ y))) = true := by
  have h : a ++ (b ++ (c ++ y)) = (a ++ (b ++ c)) ++ y := by simp
  rw [h]
  exact listContains_self _ _

theorem listContains_of_leadsWith (pat s : List Char)
    (h : leadsWith pat s = true) : listContains pat s = true := by
  cases s with
  | nil =>
    cases pat with
    | nil => rfl
    | cons p pr => simp [leadsWith] at h
  | cons c r => simp [listContains, h]

/-! ### General facts about the worker used by several claims -/

theorem isEmpty_false_of_ne {l : List Char} (h : l ≠ []) : l.isEmpty = false := by
  cases l with
  | nil => exact absurd rfl h
  | cons a r => rfl

theorem ne_nil_of_three {t : List Char} (h3 : (splitOnChar '.' t).length = 3) :
    t ≠ [] := by
  intro ht
  subst ht
  simp [splitOnChar] at h3

theorem decodeJWT_nil : decodeJWT [] = .error .invalidFormat := rfl

theorem ne_nil_of_decode_ok {t : List Char} {p : Json}
    (h : decodeJWT t = .ok p) : t ≠ [] := by
  intro ht
  subst ht
  rw [decodeJWT_nil] at h
  exact Except.noConfusion h

/-- With a non-empty token extracted, `handleSecure` is its decode-and-render
tail. -/
theorem handleSecure_eq_renderToken {h : Option String} {t : List Char}
    (hf : findToken h = some t) (hne : t ≠ []) :
    handleSecure h = renderToken t := by
  simp [handleSecure, hf, isEmpty_false_of_ne hne]

/-! ### C7 — route dispatch -/

/-- C7: the fixed base route `/secure` dispatches to the Token Renderer;
`/secure/us` and `/secure/US` both dispatch to the Asset Fetcher with the
normalized uppercase code `US` (as do case variants of the route literal
itself, such as `/SECURE/us`, since the route regex is case-insensitive);
the 3-letter path `/secure/usa` matches no route and yields the 404 response
with body `Not Found. Try /secure`. -/
theorem route_dispatch (c : Option String) (s : Store) :
    workerFetch "/secure" c s = handleSecure c ∧
    workerFetch "/secure/us" c s = handleCountryFlag "US" s ∧
    workerFetch "/secure/US" c s = handleCountryFlag "US" s ∧
    workerFetch "/SECURE/us" c s = handleCountryFlag "US" s ∧
    workerFetch "/Secure/GB" c s = handleCountryFlag "GB" s ∧
    workerFetch "/secure/usa" c s = ⟨404, "Not Found. Try /secure"⟩ :=
  ⟨rfl, rfl, rfl, rfl, rfl, rfl⟩

/-! ### C3 — Unauthenticated without the credential cookie -/

/-- The semicolon-separated pairs of an optional cookie header. -/
def cookieParts : Option String → List (List Char)
  | none => []
  | some h => splitOnChar ';' h.data

/-- The name of a cookie pair: its trimmed text up to the first `=`. -/
def cookieKey (p : List Char) : List Char :=
  (jsTrim p).takeWhile (fun c => c ≠ '=')

theorem cookieKey_of_pre {p : List Char}
    (hpre : credPrefix.isPrefixOf (jsTrim p) = true) :
    cookieKey p = "CF_Authorization".data := by
  obtain ⟨tail, ht⟩ := List.isPrefixOf_iff_prefix.mp hpre
  unfold cookieKey
  rw [← ht]
  rfl

theorem findTokenInList_none :
    ∀ ps : List (List Char),
      (∀ p ∈ ps, cookieKey p ≠ "CF_Authorization".data) →
      findTokenInList ps = none := by
  intro ps
  induction ps with
  | nil => intro _; rfl
  | cons q qs ih =>
    intro h
    have hq : credPrefix.isPrefixOf (jsTrim q) = false := by
      cases hb : credPrefix.isPrefixOf (jsTrim q) with
      | false => rfl
      | true => exact absurd (cookieKey_of_pre hb) (h q (by simp))
    simp [findTokenInList, hq, ih (fun p hp => h p (by simp [hp]))]

/-- C3: for every cookie header (including the absent case) in which no
semicolon-delimited pair is named `CF_Authorization`, `handleSecure` returns
the Unauthenticated (401) result, whatever other cookies are present. -/
theorem secure_unauth_without_key (cookieHeader : Option String)
    (h : ∀ p ∈ cookieParts cookieHeader, cookieKey p ≠ "CF_Authorization".data) :
    handleSecure cookieHeader = unauthResp := by
  cases cookieHeader with
  | none => rfl
  | some s =>
    have hn : findToken (some s) = none := by
      unfold findToken
      exact findTokenInList_none _ (by simpa [cookieParts] using h)
    simp [handleSecure, hn]

/-- Witness for C3 at a concrete two-cookie header. -/
theorem secure_unauth_without_key_witness :
    (∀ p ∈ cookieParts (some "theme=dark; session=abc123"),
      cookieKey p ≠ "CF_Authorization".data) ∧
    handleSecure (some "theme=dark; session=abc123") = unauthResp :=
  ⟨by decide, secure_unauth_without_key _ (by decide)⟩

/-! ### C9 — first credential cookie wins -/

/-- The cookie pairs whose trimmed text starts with `CF_Authorization=`, in
header order. -/
def matchingPairs (h : String) : List (List Char) :=
  (splitOnChar ';' h.data).filter (fun p => credPrefix.isPrefixOf (jsTrim p))

theorem findTokenInList_first :
    ∀ (ps : List (List Char)) (p : List Char) (rest : List (List Char)),
      ps.filter (fun q => credPrefix.isPrefixOf (jsTrim q)) = p :: rest →
      findTokenInList ps = some ((jsTrim p).drop 17) := by
  intro ps
  induction ps with
  | nil =>
    intro p rest h
    simp at h
  | cons q qs ih =>
    intro p rest h
    cases hq : credPrefix.isPrefixOf (jsTrim q) with
    | true =>
      rw [List.filter_cons_of_pos (by simpa using hq)] at h
      have hqp : q = p := by
        have hh := h
        simp only [List.cons.injEq] at hh
        exact hh.1
      subst hqp
      simp [findTokenInList, hq]
    | false =>
      rw [List.filter_cons_of_neg (by simp [hq])] at h
      simp [findTokenInList, hq, ih p rest h]

/-- C9: when several `CF_Authorization` pairs are present, `handleSecure`
takes the first one's value as the token and ignores the later ones. -/
theorem first_cred_cookie_wins (h : String) (p : List Char)
    (rest : List (List Char)) (hm : matchingPairs h = p :: rest) :
    findToken (some h) = some ((jsTrim p).drop 17) ∧
    handleSecure (some h) =
      (if ((jsTrim p).drop 17).isEmpty then unauthResp
       else renderToken ((jsTrim p).drop 17)) := by
  have hf : findToken (some h) = some ((jsTrim p).drop 17) := by
    unfold findToken
    exact findTokenInList_first _ p rest hm
  exact ⟨hf, by simp [handleSecure, hf]⟩

/-- Witness for C9 on a header with two credential cookies: the first one's
token is used. -/
theorem first_cred_cookie_wins_witness :
    matchingPairs "CF_Authorization=h.e30.s; CF_Authorization=zz.zz" =
      ["CF_Authorization=h.e30.s".data, " CF_Authorization=zz.zz".data] ∧
    findToken (some "CF_Authorization=h.e30.s; CF_Authorization=zz.zz") =
      some "h.e30.s".data :=
  ⟨by decide,
   (first_cred_cookie_wins "CF_Authorization=h.e30.s; CF_Authorization=zz.zz"
      "CF_Authorization=h.e30.s".data [" CF_Authorization=zz.zz".data]
      (by decide)).1⟩

/-! ### C10 — only the payload segment matters -/

/-- C10: two extracted 3-segment tokens with the same middle segment render
identically; the header and signature segments have no influence beyond the
segment count. -/
theorem payload_noninterference (h1 h2 : Option String) (t1 t2 : List Char)
    (hf1 : findToken h1 = some t1) (hf2 : findToken h2 = some t2)
    (h31 : (splitOnChar '.' t1).length = 3)
    (h32 : (splitOnChar '.' t2).length = 3)
    (hmid : (splitOnChar '.' t1).getD 1 [] = (splitOnChar '.' t2).getD 1 []) :
    handleSecure h1 = handleSecure h2 := by
  have hd : decodeJWT t1 = decodeJWT t2 := by
    simp only [decodeJWT, h31, h32, hmid]
  rw [handleSecure_eq_renderToken hf1 (ne_nil_of_three h31),
      handleSecure_eq_renderToken hf2 (ne_nil_of_three h32)]
  unfold renderToken
  rw [hd]

/-- Witness for C10: same payload `e30` under different header and signature
segments. -/
theorem payload_noninterference_witness :
    handleSecure (some "CF_Authorization=aa.e30.bb") =
      handleSecure (some "CF_Authorization=xxxx.e30.yyyy") :=
  payload_noninterference _ _ "aa.e30.bb".data "xxxx.e30.yyyy".data
    rfl rfl (by decide) (by decide) (by decide)

/-! ### C4 — wrong segment count -/

/-- C4 (amended to non-empty tokens): an extracted non-empty token whose
split on `.` does not have exactly 3 segments fails with the MalformedToken
kind — the worker's own `Invalid JWT format` error — and no other. -/
theorem malformed_token_result (h : Option String) (t : List Char)
    (hf : findToken h = some t) (hne : t ≠ [])
    (h3 : (splitOnChar '.' t).length ≠ 3) :
    decodeJWT t = Except.error JwtErr.invalidFormat ∧
    specKind JwtErr.invalidFormat = SpecErrorKind.malformedToken ∧
    handleSecure h = errorResp "Invalid JWT format" := by
  have hd : decodeJWT t = .error .invalidFormat := by
    simp only [decodeJWT, if_neg h3]
  refine ⟨hd, rfl, ?_⟩
  rw [handleSecure_eq_renderToken hf hne]
  unfold renderToken
  rw [hd]
  rfl

/-- Counterexample to C4 as stated: the extracted token of the header
`CF_Authorization=` is the empty string, whose split has 1 segment, yet
`handleSecure` answers Unauthenticated (401), not MalformedToken. -/
theorem malformed_token_empty_counterexample :
    findToken (some "CF_Authorization=") = some [] ∧
    (splitOnChar '.' ([] : List Char)).length ≠ 3 ∧
    handleSecure (some "CF_Authorization=") = unauthResp ∧
    (handleSecure (some "CF_Authorization=")).status = 401 ∧
    handleSecure (some "CF_Authorization=") ≠ errorResp "Invalid JWT format" :=
  ⟨rfl, by decide, rfl, rfl, by decide⟩

/-- Witness for the amended C4 at the 2-segment token `a.b`. -/
theorem malformed_token_result_witness :
    findToken (some "CF_Authorization=a.b") = some "a.b".data ∧
    decodeJWT "a.b".data = Except.error JwtErr.invalidFormat ∧
    handleSecure (some "CF_Authorization=a.b") = errorResp "Invalid JWT format" :=
  ⟨rfl,
   (malformed_token_result (some "CF_Authorization=a.b") "a.b".data rfl
      (by decide) (by decide)).1,
   (malformed_token_result (some "CF_Authorization=a.b") "a.b".data rfl
      (by decide) (by decide)).2.2⟩

/-! ### C5 — bad base64 or bad JSON in the payload segment -/

/-- The middle token segment after the URL-safe-alphabet substitution, as
fed to `atob`. -/
def middleSegment (t : List Char) : List Char :=
  ((splitOnChar '.' t).getD 1 []).map b64urlChar

/-- C5: for an extracted 3-segment token whose middle segment is not valid
base64, or whose decoded bytes are not valid JSON, the decode fails with one
of the two DecodeError kinds (never MalformedToken) and the response is the
500 error page. -/
theorem decode_error_result (h : Option String) (t : List Char)
    (hf : findToken h = some t)
    (h3 : (splitOnChar '.' t).length = 3)
    (hfail : atobChars (middleSegment t) = none ∨
      ∃ bytes, atobChars (middleSegment t) = some bytes ∧
        parseJson (bytes.map Char.ofNat) = none) :
    ∃ e, decodeJWT t = Except.error e ∧ specKind e = SpecErrorKind.decodeError ∧
      handleSecure h = errorResp (errMessage e) ∧
      (handleSecure h).status = 500 := by
  have hren : handleSecure h = renderToken t :=
    handleSecure_eq_renderToken hf (ne_nil_of_three h3)
  have hd : ∃ e, decodeJWT t = Except.error e ∧
      specKind e = SpecErrorKind.decodeError := by
    rcases hfail with ha | ⟨bytes, hb, hp⟩
    · refine ⟨.invalidBase64, ?_, rfl⟩
      simp only [middleSegment] at ha
      simp only [decodeJWT, h3, if_true, ha]
    · refine ⟨.invalidJson, ?_, rfl⟩
      simp only [middleSegment] at hb
      simp only [decodeJWT, h3, if_true, hb, hp]
  obtain ⟨e, he, hk⟩ := hd
  refine ⟨e, he, hk, ?_, ?_⟩
  · rw [hren]
    unfold renderToken
    rw [he]
  · rw [hren]
    unfold renderToken
    rw [he]
    rfl

/-- Witness for C5: the middle segment `!!!` is not base64. -/
theorem decode_error_result_witness :
    atobChars (middleSegment "a.!!!.c".data) = none ∧
    ∃ e, decodeJWT "a.!!!.c".data = Except.error e ∧
      specKind e = SpecErrorKind.decodeError ∧
      handleSecure (some "CF_Authorization=a.!!!.c") = errorResp (errMessage e) ∧
      (handleSecure (some "CF_Authorization=a.!!!.c")).status = 500 :=
  ⟨by decide,
   decode_error_result (some "CF_Authorization=a.!!!.c") "a.!!!.c".data rfl
     (by decide) (Or.inl (by decide))⟩

/-! ### C1 — interpolated claim fields are not HTML-escaped -/

/-- C1 fails on the code: the token whose payload is the record with email
`<script>alert(1)</script>` renders a body containing the raw, unescaped
substring `<script>`.  No escaping of any interpolated value happens in
`handleSecure`. -/
theorem unescaped_script_rendered :
    decodeJWT "h.eyJlbWFpbCI6IjxzY3JpcHQ-YWxlcnQoMSk8L3NjcmlwdD4ifQ.s".data =
      Except.ok (Json.obj
        [("email".data, Json.str "<script>alert(1)</script>".data)]) ∧
    hasSubstr (handleSecure (some
        "CF_Authorization=h.eyJlbWFpbCI6IjxzY3JpcHQ-YWxlcnQoMSk8L3NjcmlwdD4ifQ.s")).body
      "<script>" = true :=
  ⟨rfl, by decide⟩

/-! ### C2 — error bodies use the HTML shell, except the route 404 -/

/-- Every `handleSecure` response body, success or error, is an instance of
the `renderHTML` shell. -/
theorem handleSecure_body_shell (c : Option String) :
    ∃ t m, (handleSecure c).body = renderHTML t m := by
  cases hf : findToken c with
  | none =>
    have h1 : handleSecure c = unauthResp := by simp [handleSecure, hf]
    rw [h1]
    exact ⟨_, _, rfl⟩
  | some t =>
    cases ht : t.isEmpty with
    | true =>
      have h1 : handleSecure c = unauthResp := by simp [handleSecure, hf, ht]
      rw [h1]
      exact ⟨_, _, rfl⟩
    | false =>
      have h1 : handleSecure c = renderToken t := by simp [handleSecure, hf, ht]
      rw [h1]
      unfold renderToken
      cases hd : decodeJWT t with
      | error e => exact ⟨_, _, rfl⟩
      | ok p =>
        cases p with
        | null => exact ⟨_, _, rfl⟩
        | bool b => exact ⟨_, _, rfl⟩
        | num m e => exact ⟨_, _, rfl⟩
        | str s => exact ⟨_, _, rfl⟩
        | arr xs => exact ⟨_, _, rfl⟩
        | obj ms => exact ⟨_, _, rfl⟩

/-- Every non-200 `handleCountryFlag` response body is an instance of the
`renderHTML` shell. -/
theorem handleCountryFlag_body_shell (code : String) (s : Store)
    (hst : (handleCountryFlag code s).status ≠ 200) :
    ∃ t m, (handleCountryFlag code s).body = renderHTML t m := by
  cases hs : s (code ++ ".png") with
  | error msg =>
    have h1 : handleCountryFlag code s = storeErrResp msg := by
      simp [handleCountryFlag, hs]
    rw [h1]
    exact ⟨_, _, rfl⟩
  | ok ob =>
    cases ob with
    | none =>
      have h1 : handleCountryFlag code s = flagNotFoundResp code := by
        simp [handleCountryFlag, hs]
      rw [h1]
      exact ⟨_, _, rfl⟩
    | some blob =>
      cases hb : blobToBase64 blob with
      | none =>
        have h1 : handleCountryFlag code s = storeErrResp btoaErrMsg := by
          simp [handleCountryFlag, hs, hb]
        rw [h1]
        exact ⟨_, _, rfl⟩
      | some b64 =>
        have h1 : handleCountryFlag code s = ⟨200, flagPage code b64⟩ := by
          simp [handleCountryFlag, hs, hb]
        rw [h1] at hst
        exact absurd rfl hst

/-- C2 (amended): every error (non-200) response body is the `renderHTML`
shell — title, message, optional back-link — except the unknown-route 404,
whose body is the fixed plain text `Not Found. Try /secure`. -/
theorem error_responses_shelled (p : String) (c : Option String) (s : Store)
    (hst : (workerFetch p c s).status ≠ 200) :
    (∃ t m, (workerFetch p c s).body = renderHTML t m) ∨
    (workerFetch p c s).body = "Not Found. Try /secure" := by
  unfold workerFetch at *
  by_cases hp : p = "/secure"
  · rw [if_pos hp]
    left
    exact handleSecure_body_shell c
  · rw [if_neg hp] at hst ⊢
    cases hm : countryMatch p with
    | some cc =>
      obtain ⟨c1, c2⟩ := cc
      rw [hm] at hst
      left
      exact handleCountryFlag_body_shell _ s hst
    | none =>
      right
      rfl

/-- The `renderHTML` shell always carries the doctype. -/
theorem renderHTML_hasSubstr_doctype (t m : String) :
    hasSubstr (renderHTML t m) "<!DOCTYPE html>" = true := by
  unfold hasSubstr renderHTML
  simp only [strData_append, List.append_assoc]
  have hsplit : shellA.data = "\n\t\t".data ++ ("<!DOCTYPE html>".data ++
      "\n\t\t<html lang=\"en\">\n\t\t<head>\n\t\t\t<meta charset=\"UTF-8\">\n\t\t\t<meta name=\"viewport\" content=\"width=device-width, initial-scale=1.0\">\n\t\t\t<title>".data) := by
    decide
  rw [hsplit]
  simp only [List.append_assoc]
  apply listContains_append_left
  exact listContains_self _ _

/-- Counterexample to C2 as stated: the unknown-route 404 body is the plain
text `Not Found. Try /secure`, which is not an instance of the HTML shell. -/
theorem error_responses_shelled_counterexample :
    (workerFetch "/nope" none (fun _ => Except.ok none)).status = 404 ∧
    (workerFetch "/nope" none (fun _ => Except.ok none)).body =
      "Not Found. Try /secure" ∧
    ¬∃ t m, (workerFetch "/nope" none (fun _ => Except.ok none)).body =
      renderHTML t m := by
  refine ⟨rfl, rfl, ?_⟩
  rintro ⟨t, m, habs⟩
  have hc := renderHTML_hasSubstr_doctype t m
  rw [← habs] at hc
  exact absurd hc (by decide)

/-- Witness for the amended C2 at the 401 response. -/
theorem error_responses_shelled_witness :
    (workerFetch "/secure" none (fun _ => Except.ok none)).status ≠ 200 ∧
    ((∃ t m, (workerFetch "/secure" none (fun _ => Except.ok none)).body =
        renderHTML t m) ∨
      (workerFetch "/secure" none (fun _ => Except.ok none)).body =
        "Not Found. Try /secure") :=
  ⟨by decide, error_responses_shelled "/secure" none _ (by decide)⟩

/-! ### C6 — the rendered authentication line -/

/-- C6 (amended: the actual `toUTCString` of iat 1696272615 is
`Mon, 02 Oct 2023 18:50:15 GMT`): a token whose payload decodes to the record
with email `a@b.com`, iat `1696272615` and country `US` renders the literal
line followed by the hyperlink to the asset route for `US`; an absent email
or country renders as `Unknown`, and an absent iat renders the timestamp as
`Unknown`. -/
theorem authenticated_line_rendered :
    (∀ (h : Option String) (t : List Char) (ms : List (List Char × Json)),
      findToken h = some t → decodeJWT t = Except.ok (Json.obj ms) →
      lookupLast ms "email".data = some (Json.str "a@b.com".data) →
      lookupLast ms "iat".data = some (Json.num 1696272615 0) →
      lookupLast ms "country".data = some (Json.str "US".data) →
      hasSubstr (handleSecure h).body
        "a@b.com authenticated at Mon, 02 Oct 2023 18:50:15 GMT from <a href=\"/secure/US\">US</a>" =
        true) ∧
    (∀ (h : Option String) (t : List Char) (ms : List (List Char × Json)),
      findToken h = some t → decodeJWT t = Except.ok (Json.obj ms) →
      lookupLast ms "email".data = none →
      hasSubstr (handleSecure h).body "Unknown authenticated at " = true) ∧
    (∀ (h : Option String) (t : List Char) (ms : List (List Char × Json)),
      findToken h = some t → decodeJWT t = Except.ok (Json.obj ms) →
      lookupLast ms "country".data = none →
      hasSubstr (handleSecure h).body
        "from <a href=\"/secure/Unknown\">Unknown</a>" = true) ∧
    (∀ (h : Option String) (t : List Char) (ms : List (List Char × Json)),
      findToken h = some t → decodeJWT t = Except.ok (Json.obj ms) →
      lookupLast ms "iat".data = none →
      hasSubstr (handleSecure h).body " authenticated at Unknown from " = true) := by
  have key : ∀ (h : Option String) (t : List Char) (ms : List (List Char × Json)),
      findToken h = some t → decodeJWT t = Except.ok (Json.obj ms) →
      handleSecure h = renderClaimsHtml (Json.obj ms) := by
    intro h t ms hf hd
    rw [handleSecure_eq_renderToken hf (ne_nil_of_decode_ok hd)]
    unfold renderToken
    rw [hd]
    rfl
  refine ⟨?_, ?_, ?_, ?_⟩
  · intro h t ms hf hd he hi hc
    rw [key h t ms hf hd]
    simp only [renderClaimsHtml, getProp, he, hi, hc]
    decide
  · intro h t ms hf hd he
    rw [key h t ms hf hd]
    unfold hasSubstr
    simp only [renderClaimsHtml, getProp, he, renderHTML, strData_append,
      List.append_assoc]
    apply listContains_append_left
    apply listContains_append_left
    apply listContains_append_left
    apply listContains_append_left
    apply listContains_append_left
    apply listContains_append_left
    apply listContains_of_leadsWith
    rfl
  · intro h t ms hf hd hc
    rw [key h t ms hf hd]
    unfold hasSubstr
    simp only [renderClaimsHtml, getProp, hc, renderHTML, strData_append,
      List.append_assoc]
    apply listContains_append_left
    apply listContains_append_left
    apply listContains_append_left
    apply listContains_append_left
    apply listContains_append_left
    apply listContains_append_left
    apply listContains_append_left
    apply listContains_append_left
    apply listContains_append_left
    simp only [List.cons_append]
    apply listContains_cons
    apply listContains_of_leadsWith
    rfl
  · intro h t ms hf hd hi
    rw [key h t ms hf hd]
    unfold hasSubstr
    simp only [renderClaimsHtml, getProp, hi, renderHTML, strData_append,
      List.append_assoc]
    apply listContains_append_left
    apply listContains_append_left
    apply listContains_append_left
    apply listContains_append_left
    apply listContains_append_left
    apply listContains_append_left
    apply listContains_append_left
    apply listContains_of_leadsWith
    rfl

/-- Counterexample to C6 as stated: the very payload of the claim renders
`Mon, 02 Oct 2023 18:50:15 GMT`, so the body never carries the claim's
`Thu, 02 Oct 2025 22:30:15 GMT` line. -/
theorem authenticated_line_counterexample :
    decodeJWT "h.eyJlbWFpbCI6ImFAYi5jb20iLCJpYXQiOjE2OTYyNzI2MTUsImNvdW50cnkiOiJVUyJ9.s".data =
      Except.ok (Json.obj [("email".data, Json.str "a@b.com".data),
        ("iat".data, Json.num 1696272615 0),
        ("country".data, Json.str "US".data)]) ∧
    hasSubstr (handleSecure (some
        "CF_Authorization=h.eyJlbWFpbCI6ImFAYi5jb20iLCJpYXQiOjE2OTYyNzI2MTUsImNvdW50cnkiOiJVUyJ9.s")).body
      "a@b.com authenticated at Thu, 02 Oct 2025 22:30:15 GMT from " = false :=
  ⟨rfl, by decide⟩

/-- Witness for the amended C6, one concrete token per conjunct. -/
theorem authenticated_line_rendered_witness :
    hasSubstr (handleSecure (some
        "CF_Authorization=h.eyJlbWFpbCI6ImFAYi5jb20iLCJpYXQiOjE2OTYyNzI2MTUsImNvdW50cnkiOiJVUyJ9.s")).body
      "a@b.com authenticated at Mon, 02 Oct 2023 18:50:15 GMT from <a href=\"/secure/US\">US</a>" =
      true ∧
    hasSubstr (handleSecure (some
        "CF_Authorization=h.eyJpYXQiOjE2OTYyNzI2MTUsImNvdW50cnkiOiJVUyJ9.s")).body
      "Unknown authenticated at " = true ∧
    hasSubstr (handleSecure (some
        "CF_Authorization=h.eyJlbWFpbCI6ImFAYi5jb20iLCJpYXQiOjE2OTYyNzI2MTV9.s")).body
      "from <a href=\"/secure/Unknown\">Unknown</a>" = true ∧
    hasSubstr (handleSecure (some
        "CF_Authorization=h.eyJlbWFpbCI6ImFAYi5jb20iLCJjb3VudHJ5IjoiVVMifQ.s")).body
      " authenticated at Unknown from " = true :=
  ⟨authenticated_line_rendered.1 _ _ _ rfl rfl rfl rfl rfl,
   authenticated_line_rendered.2.1 _ _ _ rfl rfl rfl,
   authenticated_line_rendered.2.2.1 _ _ _ rfl rfl rfl,
   authenticated_line_rendered.2.2.2 _ _ _ rfl rfl rfl⟩

/-! ### C8 — base64 round trip of the stored blob -/

theorem charToNat_ofNat (b : Nat) (hb : b ≤ 255) : (Char.ofNat b).toNat = b := by
  have hv : b.isValidChar := Or.inl (by omega)
  simp [Char.ofNat, hv, Char.ofNatAux, Char.toNat, UInt32.toNat,
    BitVec.toNat_ofNatLt]

theorem blobToBase64_eq (B : List Nat) (h : ∀ b ∈ B, b ≤ 255) :
    blobToBase64 B = some (String.mk (encodeB64 B)) := by
  unfold blobToBase64 btoa
  have hall : (B.map Char.ofNat).all (fun c => c.toNat ≤ 255) = true := by
    rw [List.all_eq_true]
    intro c hc
    obtain ⟨b, hb, rfl⟩ := List.mem_map.mp hc
    simp [charToNat_ofNat b (h b hb), h b hb]
  rw [if_pos hall]
  have hmap : (B.map Char.ofNat).map Char.toNat = B := by
    rw [List.map_map]
    have h2 : ∀ b ∈ B, (Char.toNat ∘ Char.ofNat) b = id b := fun b hb =>
      charToNat_ofNat b (h b hb)
    rw [List.map_congr_left h2, List.map_id]
  rw [hmap]
  rfl

/-- C8: for a blob of bytes stored under `CODE.png`, the rendered page embeds
the blob's base64 after the data-URI marker, and decoding that base64 (as a
browser reading the data URI would) gives back exactly the stored bytes. -/
theorem flag_roundtrip (store : Store) (code : String) (B : List Nat)
    (hs : store (code ++ ".png") = Except.ok (some B))
    (hb : ∀ b ∈ B, b ≤ 255) :
    handleCountryFlag code store =
      ⟨200, flagPage code (String.mk (encodeB64 B))⟩ ∧
    hasSubstr (handleCountryFlag code store).body
      ("data:image/png;base64," ++ String.mk (encodeB64 B)) = true ∧
    atobChars (encodeB64 B) = some B := by
  have h1 : handleCountryFlag code store =
      ⟨200, flagPage code (String.mk (encodeB64 B))⟩ := by
    simp [handleCountryFlag, hs, blobToBase64_eq B hb]
  refine ⟨h1, ?_, atobChars_encodeB64 B hb⟩
  rw [h1]
  apply hasSubstr_of_parts _
    (flagA ++ code ++ flagB ++ code ++
      "</h1>\n\t\t\t\t<div class=\"flag-container\">\n\t\t\t\t\t<img src=\"")
    _ (flagD ++ code ++ flagE)
  apply String.ext
  simp only [flagPage, strData_append, List.append_assoc]
  rw [show flagC.data =
    ("</h1>\n\t\t\t\t<div class=\"flag-container\">\n\t\t\t\t\t<img src=\"" : String).data ++
      ("data:image/png;base64," : String).data from by decide]
  simp [List.append_assoc]

/-- Witness for C8 at a concrete store holding four bytes under `US.png`. -/
theorem flag_roundtrip_witness :
    atobChars (encodeB64 [137, 80, 78, 71]) = some [137, 80, 78, 71] ∧
    handleCountryFlag "US"
        (fun k => if k = "US.png" then Except.ok (some [137, 80, 78, 71])
          else Except.ok none) =
      ⟨200, flagPage "US" (String.mk (encodeB64 [137, 80, 78, 71]))⟩ :=
  ⟨(flag_roundtrip
      (fun k => if k = "US.png" then Except.ok (some [137, 80, 78, 71])
        else Except.ok none)
      "US" [137, 80, 78, 71] rfl (by decide)).2.2,
   (flag_roundtrip
      (fun k => if k = "US.png" then Except.ok (some [137, 80, 78, 71])
        else Except.ok none)
      "US" [137, 80, 78, 71] rfl (by decide)).1⟩

end HeaderAuth
